import Mathlib

/-!
Verification of `twistedcaldav/method/delete_common.py` (CalDAV DELETE
behaviors).  The `DeleteResource` class is embedded shallowly: each method
becomes a function in a state-plus-exception monad `M`.  External
collaborators (quota store, the low-level `delete` file operation, the
implicit scheduler, the memcache lock, sharing queries, the tree walkers)
are oracles packaged in an `Env` record; their observable effects are
recorded in an event trace together with explicit maps for sync tokens,
quota usage and the per-collection index, so that frame conditions
("nothing mutated") and ordering conditions ("released before return")
can be stated directly.
-/

namespace DeleteCommon

abbrev Uri := String

/-- HTTP-level result of the underlying `delete` file operation: either a
plain status code or a multi-status response carrying per-child codes
(`MultiStatusResponse.children`). -/
inductive Response
  | code (n : Nat)
  | multiStatus (children : List (Uri × Nat))
deriving DecidableEq

def NO_CONTENT : Nat := 204
def MULTI_STATUS : Nat := 207
def BAD_REQUEST : Nat := 400
def FORBIDDEN : Nat := 403
def CONFLICT : Nat := 409
def PRECONDITION_FAILED : Nat := 412

/-- Payload of a raised `HTTPError`: a `StatusResponse` (code and message),
an `ErrorResponse` (code and XML element name), or a bare response code. -/
inductive HErr
  | status (code : Nat) (msg : String)
  | errorTag (code : Nat) (tag : String)
  | code (code : Nat)
deriving DecidableEq

/-- Python exceptions reachable in this module: `HTTPError`,
`MemcacheLockTimeoutError`, the `UnboundLocalError` raised when a local
variable is read before assignment, and any unexpected collaborator
failure. -/
inductive Err
  | httpError (h : HErr)
  | memcacheLockTimeout
  | unboundLocal
  | collaborator (s : String)
deriving DecidableEq

/-- Failures an external collaborator other than `MemcacheLock.acquire`
can raise: an `HTTPError` or an unexpected exception.
`MemcacheLockTimeoutError` is defined in `twistedcaldav.memcachelock` and
raised only by `MemcacheLock.acquire`. -/
inductive NTErr
  | httpError (h : HErr)
  | collaborator (s : String)
deriving DecidableEq

def NTErr.toErr : NTErr → Err
  | .httpError h => .httpError h
  | .collaborator s => .collaborator s

/-- Failures of `MemcacheLock.acquire`: the bounded wait timed out, or the
lock backend failed unexpectedly. -/
inductive LAErr
  | timeout
  | fail (s : String)
deriving DecidableEq

def LAErr.toErr : LAErr → Err
  | .timeout => .memcacheLockTimeout
  | .fail s => .collaborator s

/-- Observable calls into external collaborators, in program order. -/
inductive Event
  | deleteCall (uri : Uri)
  | quotaAdjust (uri : Uri) (delta : Int)
  | bumpSync (uri : Uri)
  | indexDelete (coll : Uri) (child : String) (rev : Nat)
  | lockAcquire (key : String)
  | lockClean (key : String)
  | implicitScheduling (uri : Uri)
  | removeVirtualShare (uri : Uri)
  | downgradeFromShare (uri : Uri)
  | deletedCalendar (uri : Uri)
deriving DecidableEq

/-- Mutable world state threaded through a request: the trace of
collaborator calls plus the per-collection sync token, per-resource quota
usage, and per-collection index contents. -/
structure St where
  events : List Event
  syncTokens : Uri → Nat
  quotaUsed : Uri → Int
  index : Uri → List String

/-- Read-only oracles describing what each external collaborator would
answer during this request.  `deleteResult` takes the uri and the depth
passed to the file operation.  `calendarCollections` and
`addressBookCollections` list, in visit order, the collections the
`report_common` tree walkers (external to this module) would hand to the
callback. -/
structure Env where
  header : Option String
  scheduleTagCompat : Bool
  resourceExists : Uri → Bool
  hasScheduleTag : Uri → Bool
  scheduleTagOf : Uri → String
  quota : Uri → Option Nat
  quotaSize : Uri → Int
  deleteResult : Uri → String → Except NTErr Response
  isPseudoCalendarCollection : Uri → Bool
  isCalendarCollection : Uri → Bool
  isAddressBookCollection : Uri → Bool
  isCollection : Uri → Bool
  testImplicit : Uri → Except NTErr Bool
  calendarUID : Uri → String
  isVirtualShare : Uri → Bool
  lockAcquireResult : String → Except LAErr Unit
  implicitResult : Uri → Except NTErr Unit
  isDefaultCalendar : Uri → Bool
  isShared : Uri → Bool
  listChildren : Uri → List String
  calendarCollections : Uri → List Uri
  addressBookCollections : Uri → List Uri
  parentOf : Uri → Uri

/-- The request context held by the `DeleteResource` object: `self.request`
headers live in `Env`, the remaining `self` fields are here. -/
structure Ctx where
  internal_request : Bool
  allowImplicitSchedule : Bool
  depth : String
  resourceUri : Uri
  parentUri : Uri

/-- State-and-exception monad for one request: Python side effects before
an exception persist, so the state is returned on both branches. -/
def M (α : Type) : Type := St → Except Err α × St

instance : Monad M where
  pure a := fun s => (.ok a, s)
  bind x f := fun s =>
    match x s with
    | (.ok a, s1) => f a s1
    | (.error e, s1) => (.error e, s1)

def throwErr {α : Type} (e : Err) : M α := fun s => (.error e, s)

def liftNT {α : Type} (x : Except NTErr α) : M α := fun s =>
  match x with
  | .ok a => (.ok a, s)
  | .error e => (.error e.toErr, s)

def liftLA {α : Type} (x : Except LAErr α) : M α := fun s =>
  match x with
  | .ok a => (.ok a, s)
  | .error e => (.error e.toErr, s)

def liftEx {α : Type} (x : Except Err α) : M α := fun s => (x, s)

def emit (ev : Event) : M Unit := fun s =>
  (.ok (), { s with events := s.events ++ [ev] })

/-- `delresource.quotaSizeAdjust(request, delta)`. -/
def quotaSizeAdjust (uri : Uri) (delta : Int) : M Unit := fun s =>
  (.ok (), { s with
    quotaUsed := fun u => if u = uri then s.quotaUsed u + delta else s.quotaUsed u,
    events := s.events ++ [.quotaAdjust uri delta] })

/-- `collection.bumpSyncToken()`: advances the revision and returns it. -/
def bumpSyncToken (uri : Uri) : M Nat := fun s =>
  (.ok (s.syncTokens uri + 1), { s with
    syncTokens := fun u => if u = uri then s.syncTokens uri + 1 else s.syncTokens u,
    events := s.events ++ [.bumpSync uri] })

/-- `collection.index().deleteResource(childName, newrevision)`. -/
def indexDeleteResource (coll : Uri) (child : String) (rev : Nat) : M Unit := fun s =>
  (.ok (), { s with
    index := fun u => if u = coll then (s.index u).erase child else s.index u,
    events := s.events ++ [.indexDelete coll child rev] })

/-- `twext.web2.dav.util.joinURL` on an uri without a trailing slash. -/
def joinURL (a b : String) : String := a ++ "/" ++ b

def basenameAux : List Char → List Char → List Char
  | [], acc => acc
  | c :: rest, acc => if c = '/' then basenameAux rest [] else basenameAux rest (acc ++ [c])

/-- `delresource.fp.basename()`: the path component after the last slash. -/
def basename (uri : Uri) : String := String.mk (basenameAux uri.data [])

/-- `DeleteResource.validIfScheduleMatch`.  When the header is supplied and
the resource either does not exist or carries no `ScheduleTag` dead
property, `matched` stays `False` with the local `scheduletag` never
assigned, so evaluating the `log.debug` format arguments raises
`UnboundLocalError` before the `HTTPError(PRECONDITION_FAILED)` line is
reached. -/
def validIfScheduleMatch (ctx : Ctx) (env : Env) : Except Err Unit :=
  if ctx.internal_request = false then
    match env.header with
    | some header =>
      if env.resourceExists ctx.resourceUri && env.hasScheduleTag ctx.resourceUri then
        if env.scheduleTagOf ctx.resourceUri = header then .ok ()
        else .error (.httpError (.code PRECONDITION_FAILED))
      else .error .unboundLocal
    | none => .ok ()
  else .ok ()

/-- `DeleteResource.deleteResource`: plain (non-calendar-object) delete. -/
def deleteResource (ctx : Ctx) (env : Env) (deluri parentUri : Uri) : M Response := do
  let myquota := env.quota deluri
  let old_size : Int :=
    match myquota with
    | some _ => env.quotaSize deluri
    | none => 0
  emit (.deleteCall deluri)
  let response ← liftNT (env.deleteResult deluri ctx.depth)
  if myquota.isSome then
    quotaSizeAdjust deluri (-old_size)
  if response = Response.code NO_CONTENT then
    if env.isPseudoCalendarCollection parentUri then do
      let newrevision ← bumpSyncToken parentUri
      indexDeleteResource parentUri (basename deluri) newrevision
  pure response

/-- The `try ... except MemcacheLockTimeoutError ... finally ...` shape of
`deleteCalendarResource`: the handler converts a lock timeout into an
`HTTPError(CONFLICT)`, and the finalizer runs on every exit path after the
handler has been applied. -/
def tryConflictFinally (deluri : Uri) (body : M Response) (fin : M Unit) : M Response :=
  fun s =>
    let r1 := body s
    let r2 : Except Err Response :=
      match r1.1 with
      | .ok v => .ok v
      | .error .memcacheLockTimeout =>
        .error (.httpError (.status CONFLICT
          ("Resource: " ++ deluri ++ " currently in use on the server.")))
      | .error e => .error e
    match fin r1.2 with
    | (.ok _, s2) => (r2, s2)
    | (.error e, s2) => (.error e, s2)

/-- Lines 143-159 of `deleteCalendarResource`: the scheduler object is
created whenever the request is client-originated and implicit scheduling
is allowed, regardless of what `testImplicitSchedulingDELETE` answers; the
lock (keyed by the calendar object's UID) is created only when that answer
was affirmative and the parent is not a virtual share. -/
def schedulerSetup (ctx : Ctx) (env : Env) (deluri parentUri : Uri) :
    M (Option Bool × Option String) :=
  if !ctx.internal_request && ctx.allowImplicitSchedule then do
    let do_implicit_action ← liftNT (env.testImplicit deluri)
    if do_implicit_action then
      if env.isVirtualShare parentUri then
        throwErr (.httpError (.errorTag FORBIDDEN "sharee-privilege-needed"))
      else
        pure (some do_implicit_action, some (env.calendarUID deluri))
    else
      pure (some do_implicit_action, none)
  else
    pure (none, none)

/-- Lines 165-179 of `deleteCalendarResource`: delete, adjust quota, and on
a no-content result bump the parent's sync token, update the index, and run
the implicit scheduler when one exists for a client request. -/
def dcrCore (ctx : Ctx) (env : Env) (deluri parentUri : Uri) (myquota : Option Nat)
    (old_size : Int) (scheduler : Option Bool) : M Response := do
  emit (.deleteCall deluri)
  let response ← liftNT (env.deleteResult deluri ctx.depth)
  if myquota.isSome then
    quotaSizeAdjust deluri (-old_size)
  if response = Response.code NO_CONTENT then do
    let newrevision ← bumpSyncToken parentUri
    indexDeleteResource parentUri (basename deluri) newrevision
    if scheduler.isSome && !ctx.internal_request && ctx.allowImplicitSchedule then do
      emit (.implicitScheduling deluri)
      liftNT (env.implicitResult deluri)
  pure response

/-- The `try` body of `deleteCalendarResource` (lines 162-179): acquire the
lock when one was created, then run the core delete sequence. -/
def dcrBody (ctx : Ctx) (env : Env) (deluri parentUri : Uri) (myquota : Option Nat)
    (old_size : Int) (scheduler : Option Bool) (lock : Option String) : M Response := do
  (match lock with
   | some key => do
     liftLA (env.lockAcquireResult key)
     emit (.lockAcquire key)
   | none => pure ())
  dcrCore ctx env deluri parentUri myquota old_size scheduler

/-- `DeleteResource.deleteCalendarResource`: scheduling-aware delete of one
calendar object. -/
def deleteCalendarResource (ctx : Ctx) (env : Env) (deluri parentUri : Uri) : M Response := do
  liftEx (validIfScheduleMatch ctx env)
  let myquota := env.quota deluri
  let old_size : Int :=
    match myquota with
    | some _ => env.quotaSize deluri
    | none => 0
  let sl ← schedulerSetup ctx env deluri parentUri
  tryConflictFinally deluri
    (dcrBody ctx env deluri parentUri myquota old_size sl.1 sl.2)
    (match sl.2 with
     | some key => emit (.lockClean key)
     | none => pure ())

/-- Modelled from the spec: the ResponseAggregator (`ResponseQueue` from
`twext.web2.dav.http`, not under src/) keeps a per-child error map; `add`
records one child's code under its URI. -/
def respAdd (errors : List (Uri × Nat)) (href : Uri) (code : Nat) : List (Uri × Nat) :=
  if errors.any (fun p => p.1 = href) then
    errors.map (fun p => if p.1 = href then (href, code) else p)
  else
    errors ++ [(href, code)]

/-- Modelled from the spec: merging a `MultiStatusResponse`'s children into
the aggregator unions the per-child error maps. -/
def mergeResponses (errors : List (Uri × Nat)) : List (Uri × Nat) → List (Uri × Nat)
  | [] => errors
  | (href, code) :: rest => mergeResponses (respAdd errors href code) rest

/-- Modelled from the spec: `ResponseQueue.response()` yields the default
success code when no child failed, else a multi-status outcome with the
accumulated error map. -/
def respResponse (errors : List (Uri × Nat)) : Response :=
  if errors.isEmpty then .code NO_CONTENT else .multiStatus errors

/-- The per-child loop of `deleteCalendar`: each child is deleted through
`deleteCalendarResource`; a bare `except:` records `BAD_REQUEST` for the
child's URI and continues with the next sibling. -/
def childLoop (ctx : Ctx) (env : Env) (deluri : Uri) :
    List String → List (Uri × Nat) → M (List (Uri × Nat))
  | [], errors => pure errors
  | childname :: rest, errors => fun s =>
    let childurl := joinURL deluri childname
    match deleteCalendarResource ctx env childurl deluri s with
    | (.ok _, s1) => childLoop ctx env deluri rest errors s1
    | (.error _, s1) => childLoop ctx env deluri rest (respAdd errors childurl BAD_REQUEST) s1

/-- `DeleteResource.deleteCalendar`: delete an entire calendar collection.
The default-calendar check runs before the depth check; the collection's
own `bumpSyncToken` runs unconditionally before its removal is attempted. -/
def deleteCalendar (ctx : Ctx) (env : Env) (deluri parentUri : Uri) : M Response := do
  if env.isDefaultCalendar deluri then
    throwErr (.httpError (.errorTag FORBIDDEN "default-calendar-delete-allowed"))
  if ctx.depth ≠ "infinity" then
    throwErr (.httpError (.status BAD_REQUEST
      ("Client sent illegal depth header value for DELETE: " ++ ctx.depth)))
  if env.isVirtualShare deluri then do
    emit (.removeVirtualShare deluri)
    pure (Response.code NO_CONTENT)
  else do
    let errors ← childLoop ctx env deluri (env.listChildren deluri) []
    if env.isShared deluri then
      emit (.downgradeFromShare deluri)
    let _ ← bumpSyncToken deluri
    let more_responses ← deleteResource ctx env deluri parentUri
    let errors :=
      match more_responses with
      | .multiStatus children => mergeResponses errors children
      | _ => errors
    let response := respResponse errors
    if response = Response.code NO_CONTENT then
      emit (.deletedCalendar deluri)
    pure response

/-- The calendar-collection walk of `deleteCollection`: for each calendar
collection the (external) `applyToCalendarCollections` walker visits, the
callback locates its parent, runs `deleteCalendar` and merges any
multi-status children into the aggregator; errors are not caught here. -/
def calColLoop (ctx : Ctx) (env : Env) :
    List Uri → List (Uri × Nat) → M (List (Uri × Nat))
  | [], errors => pure errors
  | caluri :: rest, errors => do
    let response ← deleteCalendar ctx env caluri (env.parentOf caluri)
    let errors :=
      match response with
      | .multiStatus children => mergeResponses errors children
      | _ => errors
    calColLoop ctx env rest errors

/-- `DeleteResource.deleteCollection`: delete a regular collection, first
processing every contained calendar collection. -/
def deleteCollection (ctx : Ctx) (env : Env) : M Response := do
  if ctx.depth ≠ "infinity" then
    throwErr (.httpError (.status BAD_REQUEST
      ("Client sent illegal depth header value for DELETE: " ++ ctx.depth)))
  let errors ← calColLoop ctx env (env.calendarCollections ctx.resourceUri) []
  let more_responses ← deleteResource ctx env ctx.resourceUri ctx.parentUri
  let errors :=
    match more_responses with
    | .multiStatus children => mergeResponses errors children
    | _ => errors
  pure (respResponse errors)

/-- The body of `deleteAddressBookResource`: quota capture, delete, quota
adjust, and sync-token/index maintenance; no lock is ever created. -/
def deleteAddressBookResourceBody (ctx : Ctx) (env : Env) (deluri parentUri : Uri) :
    M Response := do
  let myquota := env.quota deluri
  let old_size : Int :=
    match myquota with
    | some _ => env.quotaSize deluri
    | none => 0
  emit (.deleteCall deluri)
  let response ← liftNT (env.deleteResult deluri ctx.depth)
  if myquota.isSome then
    quotaSizeAdjust deluri (-old_size)
  if response = Response.code NO_CONTENT then do
    let newrevision ← bumpSyncToken parentUri
    indexDeleteResource parentUri (basename deluri) newrevision
  pure response

/-- `DeleteResource.deleteAddressBookResource`: the body wrapped in a
`try ... except MemcacheLockTimeoutError` that converts a lock timeout to
`CONFLICT` (there is no `finally` and no lock in this method). -/
def deleteAddressBookResource (ctx : Ctx) (env : Env) (deluri parentUri : Uri) :
    M Response := fun s =>
  match deleteAddressBookResourceBody ctx env deluri parentUri s with
  | (.error .memcacheLockTimeout, s1) =>
    (.error (.httpError (.status CONFLICT
      ("Resource: " ++ deluri ++ " currently in use on the server."))), s1)
  | other => other

/-- The per-child loop of `deleteAddressBook`, analogous to `childLoop`. -/
def childLoopAB (ctx : Ctx) (env : Env) (deluri : Uri) :
    List String → List (Uri × Nat) → M (List (Uri × Nat))
  | [], errors => pure errors
  | childname :: rest, errors => fun s =>
    let childurl := joinURL deluri childname
    match deleteAddressBookResource ctx env childurl deluri s with
    | (.ok _, s1) => childLoopAB ctx env deluri rest errors s1
    | (.error _, s1) => childLoopAB ctx env deluri rest (respAdd errors childurl BAD_REQUEST) s1

/-- `DeleteResource.deleteAddressBook`: delete an entire address book
collection (no default-collection protection, no post-delete cleanup). -/
def deleteAddressBook (ctx : Ctx) (env : Env) (deluri parentUri : Uri) : M Response := do
  if ctx.depth ≠ "infinity" then
    throwErr (.httpError (.status BAD_REQUEST
      ("Client sent illegal depth header value for DELETE: " ++ ctx.depth)))
  if env.isVirtualShare deluri then do
    emit (.removeVirtualShare deluri)
    pure (Response.code NO_CONTENT)
  else do
    let errors ← childLoopAB ctx env deluri (env.listChildren deluri) []
    if env.isShared deluri then
      emit (.downgradeFromShare deluri)
    let _ ← bumpSyncToken deluri
    let more_responses ← deleteResource ctx env deluri parentUri
    let errors :=
      match more_responses with
      | .multiStatus children => mergeResponses errors children
      | _ => errors
    pure (respResponse errors)

/-- The address-book-collection walk of `deleteCollectionAB`. -/
def abColLoop (ctx : Ctx) (env : Env) :
    List Uri → List (Uri × Nat) → M (List (Uri × Nat))
  | [], errors => pure errors
  | aburi :: rest, errors => do
    let response ← deleteAddressBook ctx env aburi (env.parentOf aburi)
    let errors :=
      match response with
      | .multiStatus children => mergeResponses errors children
      | _ => errors
    abColLoop ctx env rest errors

/-- `DeleteResource.deleteCollectionAB`: the address-book analogue of
`deleteCollection`. -/
def deleteCollectionAB (ctx : Ctx) (env : Env) : M Response := do
  if ctx.depth ≠ "infinity" then
    throwErr (.httpError (.status BAD_REQUEST
      ("Client sent illegal depth header value for DELETE: " ++ ctx.depth)))
  let errors ← abColLoop ctx env (env.addressBookCollections ctx.resourceUri) []
  let more_responses ← deleteResource ctx env ctx.resourceUri ctx.parentUri
  let errors :=
    match more_responses with
    | .multiStatus children => mergeResponses errors children
    | _ => errors
  pure (respResponse errors)

/-- `DeleteResource.run`: kind-based dispatch, in source order. -/
def run (ctx : Ctx) (env : Env) : M Response :=
  if env.isCalendarCollection ctx.parentUri then
    deleteCalendarResource ctx env ctx.resourceUri ctx.parentUri
  else if env.isCalendarCollection ctx.resourceUri then
    deleteCalendar ctx env ctx.resourceUri ctx.parentUri
  else if env.isAddressBookCollection ctx.parentUri then
    deleteAddressBookResource ctx env ctx.resourceUri ctx.parentUri
  else if env.isAddressBookCollection ctx.resourceUri then
    deleteAddressBook ctx env ctx.resourceUri ctx.parentUri
  else if env.isCollection ctx.resourceUri then
    deleteCollection ctx env
  else
    deleteResource ctx env ctx.resourceUri ctx.parentUri

/-! Fixtures used by witnesses and counterexamples. -/

/-- Initial state: empty trace, all tokens, quotas and indexes zeroed. -/
def st0 : St := ⟨[], fun _ => 0, fun _ => 0, fun _ => []⟩

/-- A baseline oracle assignment; individual scenarios override fields. -/
def baseEnv : Env where
  header := none
  scheduleTagCompat := false
  resourceExists := fun _ => true
  hasScheduleTag := fun _ => false
  scheduleTagOf := fun _ => ""
  quota := fun _ => none
  quotaSize := fun _ => 0
  deleteResult := fun _ _ => .ok (.code NO_CONTENT)
  isPseudoCalendarCollection := fun _ => false
  isCalendarCollection := fun _ => false
  isAddressBookCollection := fun _ => false
  isCollection := fun _ => false
  testImplicit := fun _ => .ok false
  calendarUID := fun _ => "uid"
  isVirtualShare := fun _ => false
  lockAcquireResult := fun _ => .ok ()
  implicitResult := fun _ => .ok ()
  isDefaultCalendar := fun _ => false
  isShared := fun _ => false
  listChildren := fun _ => []
  calendarCollections := fun _ => []
  addressBookCollections := fun _ => []
  parentOf := fun _ => ""

/-- A baseline client-originated request at depth infinity. -/
def baseCtx : Ctx := ⟨false, true, "infinity", "r", "p"⟩

/-! Basic facts about the monad, used throughout. -/

/-! Derived characterizations of the leaf strategies: the pure outcome of a
run and the event list it appends to the trace (`rev` stands for the bumped
revision `s.syncTokens parentUri + 1`).  These are proof artifacts, proven
against the embedding by the `_run` lemmas below. -/
def oldSizeOf (env : Env) (deluri : Uri) : Int :=
  match env.quota deluri with
  | some _ => env.quotaSize deluri
  | none => 0

def drResult (ctx : Ctx) (env : Env) (deluri : Uri) : Except Err Response :=
  match env.deleteResult deluri ctx.depth with
  | .error e => .error e.toErr
  | .ok response => .ok response

def drDelta (ctx : Ctx) (env : Env) (deluri parentUri : Uri) (rev : Nat) : List Event :=
  match env.deleteResult deluri ctx.depth with
  | .error _ => [.deleteCall deluri]
  | .ok response =>
    [.deleteCall deluri]
    ++ (if (env.quota deluri).isSome then [.quotaAdjust deluri (-(oldSizeOf env deluri))] else [])
    ++ (if response = Response.code NO_CONTENT then
          if env.isPseudoCalendarCollection parentUri then
            [.bumpSync parentUri, .indexDelete parentUri (basename deluri) rev]
          else []
        else [])

def dcrSetup (ctx : Ctx) (env : Env) (deluri parentUri : Uri) :
    Except Err (Option Bool × Option String) :=
  if !ctx.internal_request && ctx.allowImplicitSchedule then
    match env.testImplicit deluri with
    | .error e => .error e.toErr
    | .ok b =>
      if b then
        if env.isVirtualShare parentUri then
          .error (.httpError (.errorTag FORBIDDEN "sharee-privilege-needed"))
        else .ok (some b, some (env.calendarUID deluri))
      else .ok (some b, none)
  else .ok (none, none)

def dcrCoreResult (ctx : Ctx) (env : Env) (deluri : Uri) (scheduler : Option Bool) :
    Except Err Response :=
  match env.deleteResult deluri ctx.depth with
  | .error e => .error e.toErr
  | .ok response =>
    if response = Response.code NO_CONTENT then
      if scheduler.isSome && !ctx.internal_request && ctx.allowImplicitSchedule then
        match env.implicitResult deluri with
        | .ok _ => .ok response
        | .error e => .error e.toErr
      else .ok response
    else .ok response

def dcrCoreDelta (ctx : Ctx) (env : Env) (deluri parentUri : Uri) (myquota : Option Nat)
    (old_size : Int) (scheduler : Option Bool) (rev : Nat) : List Event :=
  match env.deleteResult deluri ctx.depth with
  | .error _ => [.deleteCall deluri]
  | .ok response =>
    [.deleteCall deluri]
    ++ (if myquota.isSome then [.quotaAdjust deluri (-old_size)] else [])
    ++ (if response = Response.code NO_CONTENT then
          [.bumpSync parentUri, .indexDelete parentUri (basename deluri) rev]
          ++ (if scheduler.isSome && !ctx.internal_request && ctx.allowImplicitSchedule then
                [.implicitScheduling deluri]
              else [])
        else [])

def dcrBodyResult (ctx : Ctx) (env : Env) (deluri : Uri) (scheduler : Option Bool)
    (lock : Option String) : Except Err Response :=
  match lock with
  | some key =>
    match env.lockAcquireResult key with
    | .error la => .error la.toErr
    | .ok _ => dcrCoreResult ctx env deluri scheduler
  | none => dcrCoreResult ctx env deluri scheduler

def dcrBodyDelta (ctx : Ctx) (env : Env) (deluri parentUri : Uri) (myquota : Option Nat)
    (old_size : Int) (scheduler : Option Bool) (lock : Option String) (rev : Nat) :
    List Event :=
  match lock with
  | some key =>
    match env.lockAcquireResult key with
    | .error _ => []
    | .ok _ =>
      .lockAcquire key :: dcrCoreDelta ctx env deluri parentUri myquota old_size scheduler rev
  | none => dcrCoreDelta ctx env deluri parentUri myquota old_size scheduler rev

def convertTimeout (deluri : Uri) : Except Err Response → Except Err Response
  | .error .memcacheLockTimeout =>
    .error (.httpError (.status CONFLICT
      ("Resource: " ++ deluri ++ " currently in use on the server.")))
  | r => r

def finDelta : Option String → List Event
  | some key => [.lockClean key]
  | none => []

def dcrResult (ctx : Ctx) (env : Env) (deluri parentUri : Uri) : Except Err Response :=
  match validIfScheduleMatch ctx env with
  | .error e => .error e
  | .ok _ =>
    match dcrSetup ctx env deluri parentUri with
    | .error e => .error e
    | .ok sl => convertTimeout deluri (dcrBodyResult ctx env deluri sl.1 sl.2)

def dcrDelta (ctx : Ctx) (env : Env) (deluri parentUri : Uri) (rev : Nat) : List Event :=
  match validIfScheduleMatch ctx env with
  | .error _ => []
  | .ok _ =>
    match dcrSetup ctx env deluri parentUri with
    | .error _ => []
    | .ok sl =>
      dcrBodyDelta ctx env deluri parentUri (env.quota deluri) (oldSizeOf env deluri)
        sl.1 sl.2 rev ++ finDelta sl.2

deriving instance DecidableEq for Except

/-- Events a computation appended to the trace beyond the initial state's. -/
def newEvents {α : Type} (x : M α) (s : St) : List Event :=
  ((x s).2.events).drop s.events.length

/-- Per-child failure of the scheduling-aware delete, as the pure outcome
`dcrResult` of running `deleteCalendarResource` on that child. -/
def childFails (ctx : Ctx) (env : Env) (deluri : Uri) (childname : String) : Bool :=
  match dcrResult ctx env (joinURL deluri childname) deluri with
  | .ok _ => false
  | .error _ => true

/-- Pure accumulator mirror of `childLoop`. -/
def loopErrs (ctx : Ctx) (env : Env) (deluri : Uri) :
    List String → List (Uri × Nat) → List (Uri × Nat)
  | [], errors => errors
  | c :: rest, errors =>
    loopErrs ctx env deluri rest
      (if childFails ctx env deluri c then respAdd errors (joinURL deluri c) BAD_REQUEST
       else errors)

def dabrDelta (ctx : Ctx) (env : Env) (deluri parentUri : Uri) (rev : Nat) : List Event :=
  match env.deleteResult deluri ctx.depth with
  | .error _ => [.deleteCall deluri]
  | .ok response =>
    [.deleteCall deluri]
    ++ (if (env.quota deluri).isSome then [.quotaAdjust deluri (-(oldSizeOf env deluri))] else [])
    ++ (if response = Response.code NO_CONTENT then
          [.bumpSync parentUri, .indexDelete parentUri (basename deluri) rev]
        else [])

/-! Lemmas: run characterizations of each strategy, followed by the claim
theorems and their witnesses. -/

theorem bind_app {α β : Type} (x : M α) (f : α → M β) (s : St) :
    (x >>= f) s =
      match x s with
      | (.ok a, s1) => f a s1
      | (.error e, s1) => (.error e, s1) := rfl

theorem pure_app {α : Type} (a : α) (s : St) : (pure a : M α) s = (.ok a, s) := rfl

theorem ite_app {α : Type} (c : Prop) [Decidable c] (x y : M α) (s : St) :
    (if c then x else y) s = if c then x s else y s := by
  split <;> rfl

theorem deleteResource_fst (ctx : Ctx) (env : Env) (deluri parentUri : Uri) (s : St) :
    (deleteResource ctx env deluri parentUri s).1 = drResult ctx env deluri := by
  simp only [deleteResource, drResult, bind_app, pure_app, ite_app, liftNT, emit,
    quotaSizeAdjust, bumpSyncToken, indexDeleteResource]
  rcases h : env.deleteResult deluri ctx.depth with e | r <;> simp [h] <;>
    split <;> split <;> first | (split <;> simp_all [oldSizeOf]) | simp_all [oldSizeOf]

theorem deleteResource_events (ctx : Ctx) (env : Env) (deluri parentUri : Uri) (s : St) :
    (deleteResource ctx env deluri parentUri s).2.events =
      s.events ++ drDelta ctx env deluri parentUri (s.syncTokens parentUri + 1) := by
  simp only [deleteResource, drDelta, bind_app, pure_app, ite_app, liftNT, emit,
    quotaSizeAdjust, bumpSyncToken, indexDeleteResource]
  rcases h : env.deleteResult deluri ctx.depth with e | r <;> simp [h] <;>
    split <;> split <;> first | (split <;> simp_all [oldSizeOf]) | simp_all [oldSizeOf]

theorem schedulerSetup_run (ctx : Ctx) (env : Env) (deluri parentUri : Uri) (s : St) :
    schedulerSetup ctx env deluri parentUri s = (dcrSetup ctx env deluri parentUri, s) := by
  simp only [schedulerSetup, dcrSetup, bind_app, pure_app, ite_app, liftNT, throwErr]
  split
  · rcases h : env.testImplicit deluri with e | b
    · simp [h]
    · rcases b <;> simp [h]
      all_goals (split <;> simp)
  · rfl

theorem dcrCore_run (ctx : Ctx) (env : Env) (deluri parentUri : Uri) (myquota : Option Nat)
    (old_size : Int) (scheduler : Option Bool) (s : St) :
    (dcrCore ctx env deluri parentUri myquota old_size scheduler s).1 =
        dcrCoreResult ctx env deluri scheduler ∧
      (dcrCore ctx env deluri parentUri myquota old_size scheduler s).2.events =
        s.events ++ dcrCoreDelta ctx env deluri parentUri myquota old_size scheduler
          (s.syncTokens parentUri + 1) := by
  simp only [dcrCore, dcrCoreResult, dcrCoreDelta, bind_app, pure_app, ite_app, liftNT,
    emit, quotaSizeAdjust, bumpSyncToken, indexDeleteResource]
  rcases h : env.deleteResult deluri ctx.depth with e | r <;> simp [h] <;>
    rcases hq : myquota with _ | q <;> simp [hq] <;>
    by_cases hr : r = Response.code NO_CONTENT <;> simp [hr] <;>
    by_cases hg : (scheduler.isSome = true ∧ ctx.internal_request = false) ∧
        ctx.allowImplicitSchedule = true <;>
      simp [hg] <;>
    rcases hi : env.implicitResult deluri with e2 | u2 <;> simp [hi]

theorem dcrBody_run (ctx : Ctx) (env : Env) (deluri parentUri : Uri) (myquota : Option Nat)
    (old_size : Int) (scheduler : Option Bool) (lock : Option String) (s : St) :
    (dcrBody ctx env deluri parentUri myquota old_size scheduler lock s).1 =
        dcrBodyResult ctx env deluri scheduler lock ∧
      (dcrBody ctx env deluri parentUri myquota old_size scheduler lock s).2.events =
        s.events ++ dcrBodyDelta ctx env deluri parentUri myquota old_size scheduler lock
          (s.syncTokens parentUri + 1) := by
  rcases lock with _ | key
  · have h := dcrCore_run ctx env deluri parentUri myquota old_size scheduler s
    simpa [dcrBody, dcrBodyResult, dcrBodyDelta, bind_app, pure_app] using h
  · rcases hla : env.lockAcquireResult key with la | u
    · simp [dcrBody, dcrBodyResult, dcrBodyDelta, bind_app, pure_app, liftLA, emit, hla]
    · have h := dcrCore_run ctx env deluri parentUri myquota old_size scheduler
        { s with events := s.events ++ [Event.lockAcquire key] }
      simp only [dcrBody, bind_app, pure_app, liftLA, emit, hla]
      simp [dcrBodyResult, dcrBodyDelta, hla, h.1, h.2]

theorem tryConflictFinally_emit (deluri : Uri) (body : M Response) (ev : Event) (s : St) :
    tryConflictFinally deluri body (emit ev) s =
      (convertTimeout deluri (body s).1,
        { (body s).2 with events := (body s).2.events ++ [ev] }) := by
  simp only [tryConflictFinally, emit, convertTimeout]
  rcases h : body s with ⟨r, s1⟩
  rcases r with e | v
  · rcases e <;> simp
  · simp

theorem tryConflictFinally_pure (deluri : Uri) (body : M Response) (s : St) :
    tryConflictFinally deluri body (pure ()) s =
      (convertTimeout deluri (body s).1, (body s).2) := by
  simp only [tryConflictFinally, pure_app, convertTimeout]
  rcases h : body s with ⟨r, s1⟩
  rcases r with e | v
  · rcases e <;> simp
  · simp

theorem deleteCalendarResource_run (ctx : Ctx) (env : Env) (deluri parentUri : Uri) (s : St) :
    (deleteCalendarResource ctx env deluri parentUri s).1 =
        dcrResult ctx env deluri parentUri ∧
      (deleteCalendarResource ctx env deluri parentUri s).2.events =
        s.events ++ dcrDelta ctx env deluri parentUri (s.syncTokens parentUri + 1) := by
  simp only [deleteCalendarResource, bind_app, liftEx, dcrResult, dcrDelta]
  rcases hv : validIfScheduleMatch ctx env with e | u
  · simp [hv]
  · simp only [hv, schedulerSetup_run]
    rcases hsl : dcrSetup ctx env deluri parentUri with e | sl
    · simp
    · have hb := dcrBody_run ctx env deluri parentUri (env.quota deluri)
        (oldSizeOf env deluri) sl.1 sl.2 s
      rcases sl with ⟨scheduler, lock⟩
      rcases lock with _ | key
      · simp only [finDelta, tryConflictFinally_pure, oldSizeOf] at *
        simp [hb.1, hb.2]
      · simp only [finDelta, tryConflictFinally_emit, oldSizeOf] at *
        simp [hb.1, hb.2]

theorem newEvents_deleteResource (ctx : Ctx) (env : Env) (deluri parentUri : Uri) (s : St) :
    newEvents (deleteResource ctx env deluri parentUri) s =
      drDelta ctx env deluri parentUri (s.syncTokens parentUri + 1) := by
  simp [newEvents, deleteResource_events, List.drop_left]

theorem newEvents_dcr (ctx : Ctx) (env : Env) (deluri parentUri : Uri) (s : St) :
    newEvents (deleteCalendarResource ctx env deluri parentUri) s =
      dcrDelta ctx env deluri parentUri (s.syncTokens parentUri + 1) := by
  simp [newEvents, (deleteCalendarResource_run ctx env deluri parentUri s).2, List.drop_left]

/-- C7: deleting the owner's default calendar fails `Forbidden` for every
depth and store state, with the state untouched. -/
theorem c7_default_calendar_forbidden (ctx : Ctx) (env : Env) (deluri parentUri : Uri)
    (s : St) (h : env.isDefaultCalendar deluri = true) :
    deleteCalendar ctx env deluri parentUri s =
      (.error (.httpError (.errorTag FORBIDDEN "default-calendar-delete-allowed")), s) := by
  simp [deleteCalendar, bind_app, ite_app, throwErr, h]

theorem c7_witness :
    deleteCalendar baseCtx { baseEnv with isDefaultCalendar := fun _ => true } "cal" "home" st0 =
      (.error (.httpError (.errorTag FORBIDDEN "default-calendar-delete-allowed")), st0) :=
  c7_default_calendar_forbidden baseCtx { baseEnv with isDefaultCalendar := fun _ => true }
    "cal" "home" st0 rfl

/-- C6 counterexample: with an illegal depth, deleting the default calendar
still yields `Forbidden`, not `BadRequest`, because the default-calendar
check runs before the depth check. -/
theorem c6_counterexample :
    (deleteCalendar { baseCtx with depth := "0" }
        { baseEnv with isDefaultCalendar := fun _ => true } "cal" "home" st0).1 =
      .error (.httpError (.errorTag FORBIDDEN "default-calendar-delete-allowed")) := by
  decide

/-- C6 (amended): an illegal depth yields `BadRequest` with no mutation for
all four collection deletes, except that `deleteCalendar` checks the
default-calendar protection first. -/
theorem c6_bad_depth (ctx : Ctx) (env : Env) (deluri parentUri : Uri) (s : St)
    (hd : ctx.depth ≠ "infinity") :
    (env.isDefaultCalendar deluri = false →
      deleteCalendar ctx env deluri parentUri s =
        (.error (.httpError (.status BAD_REQUEST
          ("Client sent illegal depth header value for DELETE: " ++ ctx.depth))), s)) ∧
    deleteCollection ctx env s =
      (.error (.httpError (.status BAD_REQUEST
        ("Client sent illegal depth header value for DELETE: " ++ ctx.depth))), s) ∧
    deleteAddressBook ctx env deluri parentUri s =
      (.error (.httpError (.status BAD_REQUEST
        ("Client sent illegal depth header value for DELETE: " ++ ctx.depth))), s) ∧
    deleteCollectionAB ctx env s =
      (.error (.httpError (.status BAD_REQUEST
        ("Client sent illegal depth header value for DELETE: " ++ ctx.depth))), s) := by
  refine ⟨fun hdef => ?_, ?_, ?_, ?_⟩ <;>
    simp [deleteCalendar, deleteCollection, deleteAddressBook, deleteCollectionAB,
      bind_app, ite_app, throwErr, hd, *]

theorem c6_witness :
    deleteCollection { baseCtx with depth := "1" } baseEnv st0 =
      (.error (.httpError (.status BAD_REQUEST
        ("Client sent illegal depth header value for DELETE: " ++ "1"))), st0) :=
  (c6_bad_depth { baseCtx with depth := "1" } baseEnv "cal" "home" st0 (by decide)).2.1

/-- C8: when the target is a virtual share (and the earlier checks pass),
only the share is removed: success is returned and the sync tokens, quota
usage and index maps are all untouched. -/
theorem c8_virtual_share (ctx : Ctx) (env : Env) (deluri parentUri : Uri) (s : St)
    (hdef : env.isDefaultCalendar deluri = false) (hd : ctx.depth = "infinity")
    (hv : env.isVirtualShare deluri = true) :
    deleteCalendar ctx env deluri parentUri s =
        (.ok (.code NO_CONTENT),
          { s with events := s.events ++ [.removeVirtualShare deluri] }) ∧
      deleteAddressBook ctx env deluri parentUri s =
        (.ok (.code NO_CONTENT),
          { s with events := s.events ++ [.removeVirtualShare deluri] }) := by
  constructor <;>
    simp [deleteCalendar, deleteAddressBook, bind_app, ite_app, throwErr, emit, pure_app,
      hdef, hd, hv]

theorem c8_witness :
    deleteCalendar baseCtx { baseEnv with isVirtualShare := fun _ => true } "cal" "home" st0 =
      (.ok (.code NO_CONTENT),
        { st0 with events := [.removeVirtualShare "cal"] }) :=
  (c8_virtual_share baseCtx { baseEnv with isVirtualShare := fun _ => true } "cal" "home" st0
    rfl rfl rfl).1

/-- C5: evaluation of `validIfScheduleMatch` on each precondition case.  A
missing resource or missing `ScheduleTag` property raises
`UnboundLocalError` (from the unassigned `scheduletag` in the debug-log
line), not `PreconditionFailed`; a differing stored tag does raise
`PreconditionFailed`; a matching tag and an internal request are no-ops. -/
theorem c5_schedule_tag_match_eval :
    validIfScheduleMatch baseCtx
        { baseEnv with header := some "tag1", resourceExists := fun _ => false } =
      .error .unboundLocal ∧
    validIfScheduleMatch baseCtx { baseEnv with header := some "tag1" } =
      .error .unboundLocal ∧
    validIfScheduleMatch baseCtx
        { baseEnv with
            header := some "tag1"
            hasScheduleTag := fun _ => true
            scheduleTagOf := fun _ => "other" } =
      .error (.httpError (.code PRECONDITION_FAILED)) ∧
    validIfScheduleMatch baseCtx
        { baseEnv with
            header := some "tag1"
            hasScheduleTag := fun _ => true
            scheduleTagOf := fun _ => "tag1" } = .ok () ∧
    validIfScheduleMatch { baseCtx with internal_request := true }
        { baseEnv with header := some "tag1", resourceExists := fun _ => false } = .ok () := by
  decide

/-- C3 counterexample: the underlying delete returns a multi-status (not
`NoContent`), yet the quota adjustment of `-oldSize` is still applied. -/
theorem c3_counterexample :
    (deleteResource baseCtx
          { baseEnv with
              quota := fun _ => some 100
              quotaSize := fun _ => 5
              deleteResult := fun _ _ => .ok (.multiStatus [("x", 500)]) } "u" "p" st0).1 =
        .ok (.multiStatus [("x", 500)]) ∧
      Event.quotaAdjust "u" (-5) ∈
        (deleteResource baseCtx
          { baseEnv with
              quota := fun _ => some 100
              quotaSize := fun _ => 5
              deleteResult := fun _ _ => .ok (.multiStatus [("x", 500)]) } "u" "p" st0).2.events := by
  decide

/-- C3 (amended): the `-oldSize` quota adjustment is applied whenever the
underlying delete returns normally (whatever the response code) and quota
is supported; it is skipped when quota is unsupported or the delete raises.
Stated for `deleteResource` and for the delete step of
`deleteCalendarResource` on an internal request. -/
theorem c3_quota_adjust (ctx : Ctx) (env : Env) (deluri parentUri : Uri) (s : St) :
    ((∃ q, env.quota deluri = some q) → (∃ r, env.deleteResult deluri ctx.depth = .ok r) →
      Event.quotaAdjust deluri (-(env.quotaSize deluri)) ∈
        newEvents (deleteResource ctx env deluri parentUri) s) ∧
    (env.quota deluri = none ∨ (∃ e, env.deleteResult deluri ctx.depth = .error e) →
      ∀ u d, Event.quotaAdjust u d ∉ newEvents (deleteResource ctx env deluri parentUri) s) ∧
    (ctx.internal_request = true →
      ((∃ q, env.quota deluri = some q) → (∃ r, env.deleteResult deluri ctx.depth = .ok r) →
        Event.quotaAdjust deluri (-(env.quotaSize deluri)) ∈
          newEvents (deleteCalendarResource ctx env deluri parentUri) s) ∧
      (env.quota deluri = none ∨ (∃ e, env.deleteResult deluri ctx.depth = .error e) →
        ∀ u d, Event.quotaAdjust u d ∉
          newEvents (deleteCalendarResource ctx env deluri parentUri) s)) := by
  refine ⟨?_, ?_, fun hint => ⟨?_, ?_⟩⟩
  · rintro ⟨q, hq⟩ ⟨r, hr⟩
    simp [newEvents_deleteResource, drDelta, oldSizeOf, hq, hr]
  · rintro (hq | ⟨e, he⟩) u d <;>
      rcases h2 : env.deleteResult deluri ctx.depth with e2 | r2 <;>
      simp_all [newEvents_deleteResource, drDelta, oldSizeOf] <;>
      split <;> (try split) <;> simp
  · rintro ⟨q, hq⟩ ⟨r, hr⟩
    simp [newEvents_dcr, dcrDelta, validIfScheduleMatch, dcrSetup, dcrBodyDelta,
      dcrCoreDelta, finDelta, oldSizeOf, hint, hq, hr]
  · rintro (hq | ⟨e, he⟩) u d <;>
      rcases h2 : env.deleteResult deluri ctx.depth with e2 | r2 <;>
      simp_all [newEvents_dcr, dcrDelta, validIfScheduleMatch, dcrSetup, dcrBodyDelta,
        dcrCoreDelta, finDelta, oldSizeOf, hint] <;>
      split <;> simp

theorem c3_witness :
    Event.quotaAdjust "u" (-7) ∈
      newEvents (deleteResource baseCtx
        { baseEnv with
            quota := fun _ => some 50
            quotaSize := fun _ => 7 } "u" "p") st0 :=
  (c3_quota_adjust baseCtx
    { baseEnv with
        quota := fun _ => some 50
        quotaSize := fun _ => 7 } "u" "p" st0).1
    ⟨50, rfl⟩ ⟨.code NO_CONTENT, rfl⟩

/-- C2 counterexample: in `deleteCalendar` the collection's own
`bumpSyncToken` runs before the removal is attempted, so when the
underlying delete of the collection raises, the sync token was already
advanced. -/
theorem c2_counterexample :
    Event.bumpSync "cal" ∈
        (deleteCalendar baseCtx
          { baseEnv with deleteResult := fun _ _ => .error (.collaborator "boom") }
          "cal" "home" st0).2.events ∧
      (deleteCalendar baseCtx
          { baseEnv with deleteResult := fun _ _ => .error (.collaborator "boom") }
          "cal" "home" st0).1 = .error (.collaborator "boom") := by
  decide

theorem childLoop_run (ctx : Ctx) (env : Env) (deluri : Uri) :
    ∀ (l : List String) (errors : List (Uri × Nat)) (s : St),
      ∃ s1, childLoop ctx env deluri l errors s =
        (.ok (loopErrs ctx env deluri l errors), s1) := by
  intro l
  induction l with
  | nil => exact fun errors s => ⟨s, rfl⟩
  | cons c rest ih =>
    intro errors s
    have hfst := (deleteCalendarResource_run ctx env (joinURL deluri c) deluri s).1
    rcases hrun : deleteCalendarResource ctx env (joinURL deluri c) deluri s with ⟨r, s1⟩
    rw [hrun] at hfst
    rcases r with e | v
    · have hcf : childFails ctx env deluri c = true := by
        simp [childFails, ← hfst]
      simp only [childLoop, hrun, loopErrs, hcf, if_pos]
      exact ih _ _
    · have hcf : childFails ctx env deluri c = false := by
        simp [childFails, ← hfst]
      simp only [childLoop, hrun, loopErrs, hcf, if_neg, Bool.false_eq_true,
        not_false_eq_true]
      exact ih _ _

theorem deleteCalendar_main (ctx : Ctx) (env : Env) (deluri parentUri : Uri) (s : St)
    (hdef : env.isDefaultCalendar deluri = false) (hd : ctx.depth = "infinity")
    (hvirt : env.isVirtualShare deluri = false) :
    ((deleteCalendar ctx env deluri parentUri s).1 =
      (match drResult ctx env deluri with
       | .error e => .error e
       | .ok more =>
         .ok (respResponse
           (match more with
            | .multiStatus ch =>
              mergeResponses (loopErrs ctx env deluri (env.listChildren deluri) []) ch
            | _ => loopErrs ctx env deluri (env.listChildren deluri) [])))) ∧
    Event.bumpSync deluri ∈ (deleteCalendar ctx env deluri parentUri s).2.events := by
  obtain ⟨s1, hcl⟩ := childLoop_run ctx env deluri (env.listChildren deluri) [] s
  simp only [deleteCalendar, bind_app, ite_app, throwErr, pure_app, hdef, hd, hvirt,
    Bool.false_eq_true, if_false, ne_eq, not_true_eq_false, if_true, hcl]
  by_cases hsh : env.isShared deluri = true <;> simp only [hsh, emit, pure_app,
    Bool.false_eq_true, if_false, if_true, bumpSyncToken]
  all_goals refine ⟨?_, ?_⟩ <;>
    (split <;> (rename_i a s3 heq
                have h1 := congrArg Prod.fst heq
                have h2 := congrArg (fun p => p.2.events) heq
                simp only [deleteResource_fst] at h1
                simp only [deleteResource_events] at h2
                simp_all [List.mem_append, apply_ite]
                try (rw [← h2]; simp)
                try (split <;> simp)))

/-- C2 (amended): in `deleteResource` the parent's sync token is bumped
only when the underlying delete returned `NoContent`; in `deleteCalendar`
(once the preliminary checks pass and the target is not a virtual share)
the collection's own sync token is bumped unconditionally, before its
removal is attempted and even if that removal subsequently fails. -/
theorem c2_sync_token (ctx : Ctx) (env : Env) (deluri parentUri : Uri) (s : St) :
    (env.deleteResult deluri ctx.depth ≠ .ok (.code NO_CONTENT) →
      ∀ u, Event.bumpSync u ∉ newEvents (deleteResource ctx env deluri parentUri) s) ∧
    (env.isDefaultCalendar deluri = false → ctx.depth = "infinity" →
      env.isVirtualShare deluri = false →
      Event.bumpSync deluri ∈ (deleteCalendar ctx env deluri parentUri s).2.events) := by
  constructor
  · intro h u
    rcases h2 : env.deleteResult deluri ctx.depth with e2 | r2
    · simp [newEvents_deleteResource, drDelta, h2]
    · have hne : ¬(r2 = Response.code NO_CONTENT) := fun hr => h (by rw [h2, hr])
      simp only [newEvents_deleteResource, drDelta, h2, hne, if_false]
      split <;> simp
  · intro hdef hd hvirt
    exact (deleteCalendar_main ctx env deluri parentUri s hdef hd hvirt).2

theorem c2_witness :
    Event.bumpSync "p" ∉
      newEvents (deleteResource baseCtx
        { baseEnv with deleteResult := fun _ _ => .ok (.code 500) } "u" "p") st0 :=
  (c2_sync_token baseCtx
    { baseEnv with deleteResult := fun _ _ => .ok (.code 500) } "u" "p" st0).1
    (by decide) "p"

/-- C1 counterexample: on a client request with implicit scheduling
allowed, `testImplicitSchedulingDELETE` answers that no DELETE-triggered
action is needed (`false`), yet `doImplicitScheduling` is still invoked,
because the guard at line 178 tests only that a scheduler object exists. -/
theorem c1_counterexample :
    baseEnv.testImplicit "e1" = .ok false ∧
      Event.implicitScheduling "e1" ∈
        (deleteCalendarResource baseCtx baseEnv "e1" "cal" st0).2.events := by
  decide

/-- C1 (amended): on a client-originated request with implicit scheduling
allowed, `doImplicitScheduling` is invoked exactly after the underlying
delete has returned `NoContent` — but regardless of whether
`testImplicitSchedulingDELETE` reported that an action was needed. -/
theorem c1_implicit_after_delete (ctx : Ctx) (env : Env) (deluri parentUri : Uri) (s : St)
    (hint : ctx.internal_request = false) (hallow : ctx.allowImplicitSchedule = true)
    (hmem : Event.implicitScheduling deluri ∈
      newEvents (deleteCalendarResource ctx env deluri parentUri) s) :
    env.deleteResult deluri ctx.depth = .ok (.code NO_CONTENT) ∧
      ∃ l1 l2, (deleteCalendarResource ctx env deluri parentUri s).2.events =
          l1 ++ Event.implicitScheduling deluri :: l2 ∧ Event.deleteCall deluri ∈ l1 := by
  have hev := (deleteCalendarResource_run ctx env deluri parentUri s).2
  rw [newEvents_dcr] at hmem
  rcases hv : validIfScheduleMatch ctx env with e | u
  · simp [dcrDelta, hv] at hmem
  · simp only [dcrDelta, hv] at hmem hev
    rcases hsl : dcrSetup ctx env deluri parentUri with e | sl
    · simp [hsl] at hmem
    · simp only [hsl] at hmem hev
      rcases sl with ⟨scheduler, lock⟩
      rcases hdel : env.deleteResult deluri ctx.depth with e2 | r
      · rcases lock with _ | key
        · simp [dcrBodyDelta, finDelta, dcrCoreDelta, hdel] at hmem
        · rcases hla : env.lockAcquireResult key with la | u2 <;>
            simp [dcrBodyDelta, finDelta, dcrCoreDelta, hdel, hla] at hmem
      · by_cases hr : r = Response.code NO_CONTENT
        · by_cases hg : (scheduler.isSome = true ∧ ctx.internal_request = false) ∧
              ctx.allowImplicitSchedule = true
          · refine ⟨by simp [hdel, hr], ?_⟩
            rcases lock with _ | key
            · refine ⟨s.events ++ Event.deleteCall deluri ::
                ((if (env.quota deluri).isSome then
                    [Event.quotaAdjust deluri (-oldSizeOf env deluri)] else []) ++
                  [Event.bumpSync parentUri,
                   Event.indexDelete parentUri (basename deluri) (s.syncTokens parentUri + 1)]),
                [], ?_, by simp⟩
              simp [hev, dcrBodyDelta, finDelta, dcrCoreDelta, hdel, hr, hg]
            · rcases hla : env.lockAcquireResult key with la | u2
              · simp [dcrBodyDelta, finDelta, dcrCoreDelta, hdel, hla] at hmem
              · refine ⟨s.events ++ Event.lockAcquire key :: Event.deleteCall deluri ::
                  ((if (env.quota deluri).isSome then
                      [Event.quotaAdjust deluri (-oldSizeOf env deluri)] else []) ++
                    [Event.bumpSync parentUri,
                     Event.indexDelete parentUri (basename deluri) (s.syncTokens parentUri + 1)]),
                  [Event.lockClean key], ?_, by simp⟩
                simp [hev, dcrBodyDelta, finDelta, dcrCoreDelta, hdel, hr, hg, hla]
          · rcases lock with _ | key
            · simp [dcrBodyDelta, finDelta, dcrCoreDelta, hdel, hr, hg] at hmem
            · rcases hla : env.lockAcquireResult key with la | u2 <;>
                simp [dcrBodyDelta, finDelta, dcrCoreDelta, hdel, hr, hg, hla] at hmem
        · rcases lock with _ | key
          · simp [dcrBodyDelta, finDelta, dcrCoreDelta, hdel, hr] at hmem
          · rcases hla : env.lockAcquireResult key with la | u2 <;>
              simp [dcrBodyDelta, finDelta, dcrCoreDelta, hdel, hr, hla] at hmem

theorem c1_witness :
    baseEnv.deleteResult "e1" baseCtx.depth = .ok (.code NO_CONTENT) ∧
      ∃ l1 l2, (deleteCalendarResource baseCtx baseEnv "e1" "cal" st0).2.events =
          l1 ++ Event.implicitScheduling "e1" :: l2 ∧ Event.deleteCall "e1" ∈ l1 :=
  c1_implicit_after_delete baseCtx baseEnv "e1" "cal" st0 rfl rfl (by decide)

/-- C9: whenever the lock is acquired during `deleteCalendarResource` it is
released (cleaned) later in the same run, on every exit path; and a lock
acquisition timeout is converted into a `Conflict` HTTP error. -/
theorem c9_lock_released (ctx : Ctx) (env : Env) (deluri parentUri : Uri) (s : St) :
    (∀ k, Event.lockAcquire k ∈ newEvents (deleteCalendarResource ctx env deluri parentUri) s →
      ∃ l1 l2, (deleteCalendarResource ctx env deluri parentUri s).2.events =
          l1 ++ Event.lockAcquire k :: l2 ∧ Event.lockClean k ∈ l2) ∧
    (validIfScheduleMatch ctx env = .ok () → ctx.internal_request = false →
      ctx.allowImplicitSchedule = true → env.testImplicit deluri = .ok true →
      env.isVirtualShare parentUri = false →
      env.lockAcquireResult (env.calendarUID deluri) = .error .timeout →
      (deleteCalendarResource ctx env deluri parentUri s).1 =
        .error (.httpError (.status CONFLICT
          ("Resource: " ++ deluri ++ " currently in use on the server.")))) := by
  constructor
  · intro k hmem
    have hev := (deleteCalendarResource_run ctx env deluri parentUri s).2
    rw [newEvents_dcr] at hmem
    rcases hv : validIfScheduleMatch ctx env with e | u
    · simp [dcrDelta, hv] at hmem
    · simp only [dcrDelta, hv] at hmem hev
      rcases hsl : dcrSetup ctx env deluri parentUri with e | sl
      · simp [hsl] at hmem
      · simp only [hsl] at hmem hev
        rcases sl with ⟨scheduler, lock⟩
        rcases lock with _ | key
        · exfalso
          rcases hdel : env.deleteResult deluri ctx.depth with e2 | r <;>
            simp [dcrBodyDelta, finDelta, dcrCoreDelta, hdel] at hmem <;>
          · rcases hmem with h | h <;> try rcases h with h | h
            all_goals simp_all
        · rcases hla : env.lockAcquireResult key with la | u2
          · simp [dcrBodyDelta, finDelta, hla] at hmem
          · have hk : k = key := by
              rcases hdel : env.deleteResult deluri ctx.depth with e2 | r <;>
                simp [dcrBodyDelta, finDelta, dcrCoreDelta, hdel, hla] at hmem <;>
                try rcases hmem with h | h <;> try rcases h with h | h
              all_goals simp_all
            subst hk
            refine ⟨s.events,
              dcrCoreDelta ctx env deluri parentUri (env.quota deluri) (oldSizeOf env deluri)
                scheduler (s.syncTokens parentUri + 1) ++ [Event.lockClean k], ?_, by simp⟩
            simp [hev, dcrBodyDelta, finDelta, hla]
  · intro hv hint hallow hti hvirt hla
    have h1 := (deleteCalendarResource_run ctx env deluri parentUri s).1
    rw [h1]
    simp [dcrResult, hv, dcrSetup, hint, hallow, hti, hvirt, dcrBodyResult, hla,
      convertTimeout, LAErr.toErr]

theorem c9_witness :
    (deleteCalendarResource baseCtx
        { baseEnv with
            testImplicit := fun _ => .ok true
            lockAcquireResult := fun _ => .error .timeout } "e1" "cal" st0).1 =
      .error (.httpError (.status CONFLICT
        ("Resource: " ++ "e1" ++ " currently in use on the server."))) :=
  (c9_lock_released baseCtx
    { baseEnv with
        testImplicit := fun _ => .ok true
        lockAcquireResult := fun _ => .error .timeout } "e1" "cal" st0).2
    rfl rfl rfl rfl rfl rfl

theorem dabrBody_fst (ctx : Ctx) (env : Env) (deluri parentUri : Uri) (s : St) :
    (deleteAddressBookResourceBody ctx env deluri parentUri s).1 = drResult ctx env deluri := by
  simp only [deleteAddressBookResourceBody, bind_app, pure_app, ite_app, liftNT, emit,
    quotaSizeAdjust, bumpSyncToken, indexDeleteResource, drResult]
  rcases h : env.deleteResult deluri ctx.depth with e | r <;> simp [h] <;>
    split <;> first | (split <;> simp_all) | simp_all

theorem dabrBody_events (ctx : Ctx) (env : Env) (deluri parentUri : Uri) (s : St) :
    (deleteAddressBookResourceBody ctx env deluri parentUri s).2.events =
      s.events ++ dabrDelta ctx env deluri parentUri (s.syncTokens parentUri + 1) := by
  simp only [deleteAddressBookResourceBody, bind_app, pure_app, ite_app, liftNT, emit,
    quotaSizeAdjust, bumpSyncToken, indexDeleteResource, dabrDelta]
  rcases h : env.deleteResult deluri ctx.depth with e | r <;> simp [h] <;>
    split <;> first | (split <;> simp_all [oldSizeOf]) | simp_all [oldSizeOf]

theorem drResult_ne_timeout (ctx : Ctx) (env : Env) (deluri : Uri) :
    drResult ctx env deluri ≠ .error .memcacheLockTimeout := by
  simp only [drResult]
  rcases h : env.deleteResult deluri ctx.depth with e | r
  · rcases e <;> simp [NTErr.toErr]
  · simp

/-- C10: `deleteAddressBookResource` never acquires a lock, and its
`MemcacheLockTimeoutError` handler is dead code: the whole method is
equal to its unguarded body (no collaborator it calls can raise
`MemcacheLockTimeoutError`), and no run ever records a lock acquisition. -/
theorem c10_handler_unreachable (ctx : Ctx) (env : Env) (deluri parentUri : Uri) (s : St) :
    deleteAddressBookResource ctx env deluri parentUri s =
        deleteAddressBookResourceBody ctx env deluri parentUri s ∧
      ∀ k, Event.lockAcquire k ∉
        newEvents (deleteAddressBookResource ctx env deluri parentUri) s := by
  have h1 := dabrBody_fst ctx env deluri parentUri s
  have h2 := dabrBody_events ctx env deluri parentUri s
  have heq : deleteAddressBookResource ctx env deluri parentUri s =
      deleteAddressBookResourceBody ctx env deluri parentUri s := by
    rcases hb : deleteAddressBookResourceBody ctx env deluri parentUri s with ⟨r, s1⟩
    rw [hb] at h1
    simp only [deleteAddressBookResource, hb]
    rcases r with e | v
    · have hne : e ≠ Err.memcacheLockTimeout := fun hE =>
        drResult_ne_timeout ctx env deluri (by rw [← h1, hE])
      rcases e <;> simp_all
    · rfl
  refine ⟨heq, fun k => ?_⟩
  rw [newEvents, heq, h2]
  simp only [List.drop_left]
  simp only [dabrDelta]
  rcases h : env.deleteResult deluri ctx.depth with e | r
  · simp
  · split <;> simp

theorem c10_witness :
    deleteAddressBookResource baseCtx baseEnv "e1" "ab" st0 =
        deleteAddressBookResourceBody baseCtx baseEnv "e1" "ab" st0 ∧
      Event.lockAcquire "k" ∉
        newEvents (deleteAddressBookResource baseCtx baseEnv "e1" "ab") st0 :=
  ⟨(c10_handler_unreachable baseCtx baseEnv "e1" "ab" st0).1,
   (c10_handler_unreachable baseCtx baseEnv "e1" "ab" st0).2 "k"⟩

theorem respAdd_fresh (errors : List (Uri × Nat)) (href : Uri) (code : Nat)
    (h : ∀ p ∈ errors, p.1 ≠ href) :
    respAdd errors href code = errors ++ [(href, code)] := by
  have hany : errors.any (fun p => p.1 = href) = false := by
    simp only [List.any_eq_false, decide_eq_true_eq]
    exact h
  simp [respAdd, hany]

theorem loopErrs_append (ctx : Ctx) (env : Env) (deluri : Uri) :
    ∀ (l : List String) (errors : List (Uri × Nat)),
      (l.map (joinURL deluri)).Nodup →
      (∀ c ∈ l, ∀ p ∈ errors, p.1 ≠ joinURL deluri c) →
      loopErrs ctx env deluri l errors =
        errors ++ (l.filter (childFails ctx env deluri)).map
          (fun c => (joinURL deluri c, BAD_REQUEST)) := by
  intro l
  induction l with
  | nil => simp [loopErrs]
  | cons c rest ih =>
    intro errors hnd hfr
    simp only [List.map_cons, List.nodup_cons] at hnd
    by_cases hcf : childFails ctx env deluri c = true
    · have hfresh : ∀ c' ∈ rest, ∀ p ∈ errors ++ [(joinURL deluri c, BAD_REQUEST)],
          p.1 ≠ joinURL deluri c' := by
        intro c' hc' p hp
        rcases List.mem_append.1 hp with hp | hp
        · exact hfr c' (List.mem_cons_of_mem _ hc') p hp
        · simp only [List.mem_singleton] at hp
          subst hp
          intro hEq
          apply hnd.1
          have hcc : joinURL deluri c = joinURL deluri c' := hEq
          rw [hcc]
          exact List.mem_map_of_mem (joinURL deluri) hc'
      calc loopErrs ctx env deluri (c :: rest) errors
          = loopErrs ctx env deluri rest (respAdd errors (joinURL deluri c) BAD_REQUEST) := by
            simp [loopErrs, hcf]
        _ = loopErrs ctx env deluri rest (errors ++ [(joinURL deluri c, BAD_REQUEST)]) := by
            rw [respAdd_fresh errors _ _ (hfr c (List.mem_cons_self c rest))]
        _ = errors ++ [(joinURL deluri c, BAD_REQUEST)] ++
              (rest.filter (childFails ctx env deluri)).map
                (fun c => (joinURL deluri c, BAD_REQUEST)) := ih _ hnd.2 hfresh
        _ = errors ++ ((c :: rest).filter (childFails ctx env deluri)).map
              (fun c => (joinURL deluri c, BAD_REQUEST)) := by
            simp [List.filter_cons, hcf]
    · have hcf' : childFails ctx env deluri c = false := by
        simpa using hcf
      calc loopErrs ctx env deluri (c :: rest) errors
          = loopErrs ctx env deluri rest errors := by simp [loopErrs, hcf']
        _ = errors ++ (rest.filter (childFails ctx env deluri)).map
              (fun c => (joinURL deluri c, BAD_REQUEST)) :=
            ih _ hnd.2 (fun c' hc' => hfr c' (List.mem_cons_of_mem _ hc'))
        _ = errors ++ ((c :: rest).filter (childFails ctx env deluri)).map
              (fun c => (joinURL deluri c, BAD_REQUEST)) := by
            simp [List.filter_cons, hcf']

/-- C4: deleting a calendar collection never aborts on a failing child;
each failing child is recorded under its URI with the generic
`BAD_REQUEST` code, so with K failing children the outcome is a
multi-status whose error map has exactly K entries, and success when
K is zero (assuming the collection's own removal succeeds). -/
theorem c4_per_child_failures (ctx : Ctx) (env : Env) (deluri parentUri : Uri) (s : St)
    (hdef : env.isDefaultCalendar deluri = false) (hd : ctx.depth = "infinity")
    (hvirt : env.isVirtualShare deluri = false)
    (hnodup : ((env.listChildren deluri).map (joinURL deluri)).Nodup)
    (hdel : env.deleteResult deluri ctx.depth = .ok (.code NO_CONTENT)) :
    (((env.listChildren deluri).filter (childFails ctx env deluri)).length = 0 →
      (deleteCalendar ctx env deluri parentUri s).1 = .ok (.code NO_CONTENT)) ∧
    (0 < ((env.listChildren deluri).filter (childFails ctx env deluri)).length →
      ∃ errs, (deleteCalendar ctx env deluri parentUri s).1 = .ok (.multiStatus errs) ∧
        errs.length =
          ((env.listChildren deluri).filter (childFails ctx env deluri)).length) := by
  have h1 := (deleteCalendar_main ctx env deluri parentUri s hdef hd hvirt).1
  have hdr : drResult ctx env deluri = .ok (.code NO_CONTENT) := by
    simp [drResult, hdel]
  rw [hdr] at h1
  have hle := loopErrs_append ctx env deluri (env.listChildren deluri) [] hnodup
    (by intro c hc p hp; simp at hp)
  simp only [List.nil_append] at hle
  rw [hle] at h1
  constructor
  · intro hK
    rw [List.length_eq_zero] at hK
    simp [h1, hK, respResponse]
  · intro hK
    refine ⟨((env.listChildren deluri).filter (childFails ctx env deluri)).map
        (fun c => (joinURL deluri c, BAD_REQUEST)), ?_, by simp⟩
    have hne : ¬(((env.listChildren deluri).filter (childFails ctx env deluri)).map
        (fun c => (joinURL deluri c, BAD_REQUEST))).isEmpty = true := by
      rcases hflt : (env.listChildren deluri).filter (childFails ctx env deluri) with _ | ⟨c, rest⟩
      · rw [hflt] at hK; simp at hK
      · simp
    simp only [h1, respResponse]
    rw [if_neg (by simpa using hne)]

theorem c4_witness :
    ∃ errs,
      (deleteCalendar baseCtx
          { baseEnv with
              listChildren := fun _ => ["a", "b"]
              deleteResult := fun u _ =>
                if u = "cal/a" then .error (.collaborator "disk") else .ok (.code NO_CONTENT) }
          "cal" "home" st0).1 = .ok (.multiStatus errs) ∧
        errs.length = 1 := by
  have h := (c4_per_child_failures baseCtx
    { baseEnv with
        listChildren := fun _ => ["a", "b"]
        deleteResult := fun u _ =>
          if u = "cal/a" then .error (.collaborator "disk") else .ok (.code NO_CONTENT) }
    "cal" "home" st0 rfl rfl rfl (by decide) (by decide)).2 (by decide)
  simpa using h

end DeleteCommon
